import Mathlib

/-!
Shallow embedding of the VCF concordance tool (src/vcf_con.py) together with
theorems settling the frozen specification claims.

The program is a linear pipeline: command-line scan, per-file variant-set
construction, diagram-family selection, rendering.  External effects (the
cyvcf2 reader, the filesystem, matplotlib) are modelled by an explicit
environment value threaded through the model functions, and observable
behaviour (stdout, stderr, exit code, files read, diagram chosen, image path
written) is gathered in an explicit result record.
-/

/-- Variant identity: (CHROM, POS, REF, first ALT or empty string).
This is the tuple built on line 19 of src/vcf_con.py. -/
abbrev VariantId := String × Int × String × String

/-- A parsed VCF record as yielded by the cyvcf2 reader.  Only CHROM, POS,
REF and ALT are consulted by the program; QUAL, FILTER and genotypes are
carried to express that the identity ignores them (QUAL is kept as an opaque
string since its numeric value is never read). -/
structure VariantRecord where
  CHROM : String
  POS : Int
  REF : String
  ALT : List String
  QUAL : String
  FILTER : String
  genotypes : List String
deriving DecidableEq

/-- The normalization on lines 18-19 of read_vcf_variants:
alt = variant.ALT[0] if variant.ALT else "" and the 4-tuple. -/
def normalizeVariant (v : VariantRecord) : VariantId :=
  (v.CHROM, v.POS, v.REF, v.ALT.headD "")

/-- The set accumulated by the read loop: one identity per record, duplicates
collapsed by set membership. -/
def idsOf (recs : List VariantRecord) : Finset VariantId :=
  (recs.map normalizeVariant).toFinset

/-- Behaviour of one file under the cyvcf2 reader: opening fails with some
exception message, or the reader yields a list of records and then either
ends normally or raises mid-iteration with a message. -/
inductive VcfFile where
  | openFail (msg : String)
  | content (records : List VariantRecord) (parseFail : Option String)
deriving DecidableEq

/-- Whether opening or parsing the file fails at some point. -/
def readFails : VcfFile → Bool
  | .openFail _ => true
  | .content _ p => p.isSome

/-- The external environment: which paths are existing directories
(os.path.isdir) and what the reader produces for each path. -/
structure World where
  isDir : String → Bool
  vcfContent : String → VcfFile

/-- The stderr line printed on line 22:
"Error reading {vcf_file}: {str(e)}". -/
def readErrMsg (vcf_file msg : String) : String :=
  ⟨"Error reading ".data ++ vcf_file.data ++ ": ".data ++ msg.data⟩

/-- read_vcf_variants (lines 11-23): the set starts empty, records are added
until the reader is exhausted or raises; an exception is caught, a diagnostic
goes to stderr, and whatever has been accumulated so far is returned. -/
def read_vcf_variants (w : World) (vcf_file : String) : Finset VariantId × List String :=
  match w.vcfContent vcf_file with
  | .openFail msg => (∅, [readErrMsg vcf_file msg])
  | .content recs none => (idsOf recs, [])
  | .content recs (some msg) => (idsOf recs, [readErrMsg vcf_file msg])

/-- The variant set obtained for one file. -/
def readSet (w : World) (f : String) : Finset VariantId :=
  (read_vcf_variants w f).1

/-- stderr produced by reading a list of files in order. -/
def readStderr (w : World) (files : List String) : List String :=
  (files.map (fun f => (read_vcf_variants w f).2)).flatten

/- ---------------- labels (line 28 / line 56) ---------------- -/

/-- os.path.basename: the part of the path after the last slash. -/
def basenameL (s : List Char) : List Char :=
  (s.reverse.takeWhile (fun c => c != '/')).reverse

/-- Python str.replace, replacing every non-overlapping occurrence of pat
left to right; the fuel argument (instantiated with the string length, which
bounds the number of steps) makes the recursion structural. -/
def replaceAllFuel (pat rep : List Char) : Nat → List Char → List Char
  | _, [] => []
  | 0, s => s
  | fuel + 1, c :: rest =>
    if pat ≠ [] ∧ pat.isPrefixOf (c :: rest) then
      rep ++ replaceAllFuel pat rep fuel ((c :: rest).drop pat.length)
    else
      c :: replaceAllFuel pat rep fuel rest

def replaceAll (pat rep s : List Char) : List Char :=
  replaceAllFuel pat rep s.length s

/-- The label derivation os.path.basename(f).replace(".vcf", "") used on
line 28 and line 56. -/
def deriveLabel (f : String) : String :=
  ⟨replaceAll ".vcf".data [] (basenameL f.data)⟩

/-- Modelled from the spec: "a string label derived from the input's base
filename (extension stripped)", with the recognized extensions being the
plain ".vcf" and the compressed ".vcf.gz".  This is the specification's
description of the label, kept separate from deriveLabel (the code's label)
so the two can be compared. -/
def specLabel (f : String) : String :=
  let b := basenameL f.data
  if List.isSuffixOf ".vcf.gz".data b then ⟨b.take (b.length - 7)⟩
  else if List.isSuffixOf ".vcf".data b then ⟨b.take (b.length - 4)⟩
  else ⟨b⟩

/- ---------------- the label-keyed collection (lines 27-31, 55-59) ------- -/

/-- Assignment d[k] = v on a Python dict preserving insertion order: an
existing key keeps its position and has its value replaced, a new key goes
to the end. -/
def dictInsert (k : String) (v : Finset VariantId) :
    List (String × Finset VariantId) → List (String × Finset VariantId)
  | [] => [(k, v)]
  | (k', v') :: d => if k' = k then (k, v) :: d else (k', v') :: dictInsert k v d

/-- The loop: for vcf_file, label in zip(vcf_files, labels):
variant_sets[label] = read_vcf_variants(vcf_file). -/
def buildSets (w : World) (files : List String) : List (String × Finset VariantId) :=
  files.foldl (fun d f => dictInsert (deriveLabel f) (readSet w f) d) []

/- ---------------- messages and rendering model ---------------- -/

def usageMsg : String :=
  "Usage: python vcf_concordance.py file1.vcf file2.vcf [file3.vcf ...] [--output output.png]"

def provideMsg : String := "Please provide at least 2 VCF files for comparison."

def vennNote : String :=
  "Venn diagrams are not recommended for more than 3 sets. Using UpSet plot instead."

def vennSavedMsg (p : String) : String := ⟨"Venn diagram saved to ".data ++ p.data⟩

def upsetSavedMsg (p : String) : String := ⟨"UpSet plot saved to ".data ++ p.data⟩

/-- Which diagram family was rendered. -/
inductive RenderChoice where
  | venn
  | upset
deriving DecidableEq

/-- Observable outcome of a run: stdout and stderr lines in order, process
exit code, the files handed to the reader, the diagram family rendered (none
when the run refused before rendering), and the image path written (none
when the figure was shown interactively). -/
structure RunResult where
  stdout : List String
  stderr : List String
  exitCode : Nat
  readPaths : List String
  choice : Option RenderChoice
  savedPath : Option String
deriving DecidableEq

/-- create_upset_plot (lines 53-70): reads every file, renders the UpSet
plot, and either saves it (printing a confirmation) or shows it. -/
def upsetModel (w : World) (files : List String) (out : Option String) : RunResult :=
  { stdout := match out with | some p => [upsetSavedMsg p] | none => []
    stderr := readStderr w files
    exitCode := 0
    readPaths := files
    choice := some RenderChoice.upset
    savedPath := out }

/-- create_venn_diagram (lines 25-51): reads every file, draws venn2/venn3
for 2 or 3 files, otherwise prints the note and delegates to
create_upset_plot (which reads the files again); when a figure of its own is
produced it is saved (with a confirmation) or shown. -/
def vennModel (w : World) (files : List String) (out : Option String) : RunResult :=
  if files.length = 2 ∨ files.length = 3 then
    { stdout := match out with | some p => [vennSavedMsg p] | none => []
      stderr := readStderr w files
      exitCode := 0
      readPaths := files
      choice := some RenderChoice.venn
      savedPath := out }
  else
    let r := upsetModel w files out
    { r with stdout := vennNote :: r.stdout, readPaths := files ++ r.readPaths }

/-- analyze_vcf_concordance (lines 72-81).  With fewer than 2 files it
prints and returns without rendering (the exit code recorded here is the one
the process would end with if this branch were ever reached from main, where
the count has already been checked). -/
def analyzeModel (w : World) (files : List String) (out : Option String) : RunResult :=
  if files.length < 2 then
    { stdout := [provideMsg], stderr := [], exitCode := 0,
      readPaths := [], choice := none, savedPath := none }
  else if files.length ≤ 3 then vennModel w files out
  else upsetModel w files out

/- ---------------- the command-line scanner (lines 88-100) ---------------- -/

/-- arg.endswith(".vcf") or arg.endswith(".vcf.gz"). -/
def recognizedVcf (a : String) : Bool :=
  List.isSuffixOf ".vcf".data a.data || List.isSuffixOf ".vcf.gz".data a.data

/-- The while loop over sys.argv[1:]: recognized tokens are collected,
"--output" consumes the next token as the output path (a later occurrence
overwrites an earlier one), everything else is skipped.  The access
sys.argv[i+1] is unguarded: when "--output" is the last remaining token the
scan raises IndexError, modelled by none. -/
def scanArgs : List String → Option (List String × Option String)
  | [] => some ([], none)
  | a :: rest =>
    if recognizedVcf a then
      (scanArgs rest).map (fun r => (a :: r.1, r.2))
    else if a = "--output" then
      match rest with
      | [] => none
      | b :: rest2 => (scanArgs rest2).map (fun r => (r.1, some (r.2.getD b)))
    else
      scanArgs rest

def defaultOutName : String := "vcf_concordance.png"

/-- Outcome of the usage exit on lines 84-86: usage line on stdout,
sys.exit(1), nothing read or rendered. -/
def usageResult : RunResult :=
  { stdout := [usageMsg], stderr := [], exitCode := 1,
    readPaths := [], choice := none, savedPath := none }

/-- Outcome of the too-few-files exit on lines 102-104. -/
def provideResult : RunResult :=
  { stdout := [provideMsg], stderr := [], exitCode := 1,
    readPaths := [], choice := none, savedPath := none }

/-- os.path.join for a POSIX path and the fixed relative filename passed on
line 108. -/
def joinPath (dir file : String) : String :=
  if dir.data = [] then file
  else if dir.data.getLast? = some '/' then ⟨dir.data ++ file.data⟩
  else ⟨dir.data ++ '/' :: file.data⟩

/-- The main block (lines 83-110) on argv = sys.argv[1:] (so the Python
check len(sys.argv) < 3 is argv.length < 2).  none models the uncaught
IndexError from a trailing "--output": the process dies with a traceback on
stderr, a non-zero status, and nothing on stdout. -/
def mainRun (w : World) (argv : List String) : Option RunResult :=
  if argv.length < 2 then
    some usageResult
  else
    match scanArgs argv with
    | none => none
    | some (files, out0) =>
      if files.length < 2 then
        some provideResult
      else
        let out := out0.map (fun p => if w.isDir p then joinPath p defaultOutName else p)
        some (analyzeModel w files out)

/- ---------------- multi-set overlap computation (C5) ---------------- -/

/-- Modelled from the spec: the membership pattern of an identity across the
N labeled sets handed to the multi-set renderer (upsetplot.from_contents,
line 61, is an external collaborator; the spec fixes its contract).  The
pattern is the set of indices whose variant set contains x. -/
def membershipPattern (n : Nat) (sets : Fin n → Finset VariantId) (x : VariantId) :
    Finset (Fin n) :=
  Finset.univ.filter (fun i => x ∈ sets i)

/-- Union of all the input sets. -/
def unionAll (n : Nat) (sets : Fin n → Finset VariantId) : Finset VariantId :=
  Finset.univ.biUnion sets

/-- Modelled from the spec: "the count of identities whose presence/absence
pattern matches that combination exactly" — the cardinality the multi-set
renderer computes for one membership combination. -/
def exactComboCount (n : Nat) (sets : Fin n → Finset VariantId) (c : Finset (Fin n)) : Nat :=
  ((unionAll n sets).filter (fun x => membershipPattern n sets x = c)).card

/-- The non-empty membership combinations over N sets. -/
def nonemptyCombos (n : Nat) : Finset (Finset (Fin n)) :=
  Finset.univ.filter (fun c => c ≠ ∅)

/- ---------------- concrete worlds and records used by witnesses -------- -/

def recA : VariantRecord :=
  { CHROM := "chr1", POS := 100, REF := "A", ALT := ["T", "G"],
    QUAL := "50", FILTER := "PASS", genotypes := ["0/1"] }

def recB : VariantRecord :=
  { CHROM := "chr1", POS := 100, REF := "A", ALT := ["T"],
    QUAL := "99", FILTER := "q10", genotypes := ["1/1"] }

def recNoAlt : VariantRecord :=
  { CHROM := "chr2", POS := 200, REF := "C", ALT := [],
    QUAL := "10", FILTER := "PASS", genotypes := [] }

/-- An environment with no directories where every read succeeds empty. -/
def wEmpty : World :=
  { isDir := fun _ => false, vcfContent := fun _ => .content [] none }

/-- An environment where "bad.vcf" fails to open and every other file yields
one record and then dies mid-parse. -/
def wFail : World :=
  { isDir := fun _ => false
    vcfContent := fun p =>
      if p = "bad.vcf" then .openFail "boom" else .content [recA] (some "truncated") }

/-- An environment where only "outdir" is an existing directory. -/
def wDir : World :=
  { isDir := fun p => p == "outdir", vcfContent := fun _ => .content [] none }

/-- An environment where "b/s.vcf" holds one record and other files are
empty: used to exercise the label collision between a/s.vcf and b/s.vcf. -/
def wColl : World :=
  { isDir := fun _ => false
    vcfContent := fun p => if p = "b/s.vcf" then .content [recA] none else .content [] none }

/-- Four concrete nonempty variant sets for the multi-set renderer. -/
def sets4 : Fin 4 → Finset VariantId :=
  fun i => {("chr1", (i.val : Int), "A", "T"), ("chr1", 0, "A", "T")}

/- ==================== helper lemmas ==================== -/

lemma data_append (s t : String) : (s ++ t).data = s.data ++ t.data := by
  cases s; cases t; rfl

/- ==================== claim theorems ==================== -/

/-- C1: the Variant Normalizer maps every parsed record to the 4-tuple
(chromosome, position, reference, first alternate allele), with the empty
string as fourth field when the alternate-allele list is empty, and two
records get the same identity iff these four fields agree, regardless of
all other record fields. -/
theorem c1_normalizer_identity (v1 v2 : VariantRecord) :
    (v1.ALT = [] → normalizeVariant v1 = (v1.CHROM, v1.POS, v1.REF, "")) ∧
    (∀ a rest, v1.ALT = a :: rest → normalizeVariant v1 = (v1.CHROM, v1.POS, v1.REF, a)) ∧
    (normalizeVariant v1 = normalizeVariant v2 ↔
      v1.CHROM = v2.CHROM ∧ v1.POS = v2.POS ∧ v1.REF = v2.REF ∧
        v1.ALT.headD "" = v2.ALT.headD "") := by
  refine ⟨fun h => ?_, fun a rest h => ?_, ?_⟩
  · simp [normalizeVariant, h]
  · simp [normalizeVariant, h]
  · simp [normalizeVariant, Prod.ext_iff, and_assoc]

theorem c1_normalizer_identity_witness :
    normalizeVariant recNoAlt = ("chr2", 200, "C", "") ∧
    normalizeVariant recA = normalizeVariant recB :=
  ⟨(c1_normalizer_identity recNoAlt recNoAlt).1 rfl,
   ((c1_normalizer_identity recA recB).2.2).mpr ⟨rfl, rfl, rfl, rfl⟩⟩

/-- C2: the selector chooses the pairwise (venn) diagram exactly when the
number of input sets is 2 or 3, the multi-set (UpSet) diagram exactly when
it is 4 or more, and refuses exactly below 2; the decision depends only on
the count, for every environment and output option. -/
theorem c2_selector_threshold (w : World) (files : List String) (out : Option String) :
    ((analyzeModel w files out).choice = some RenderChoice.venn ↔
      files.length = 2 ∨ files.length = 3) ∧
    ((analyzeModel w files out).choice = some RenderChoice.upset ↔ 4 ≤ files.length) ∧
    ((analyzeModel w files out).choice = none ↔ files.length < 2) := by
  unfold analyzeModel vennModel upsetModel
  by_cases h1 : files.length < 2
  · simp only [h1, if_true]
    simp; omega
  · by_cases h2 : files.length ≤ 3
    · have h23 : files.length = 2 ∨ files.length = 3 := by omega
      simp only [h1, if_false, h2, if_true]
      simp [h23]; omega
    · have h23 : ¬ (files.length = 2 ∨ files.length = 3) := by omega
      simp only [h1, if_false, h2]
      simp [h23]; omega

theorem c2_selector_threshold_witness :
    (analyzeModel wEmpty ["a.vcf", "b.vcf"] none).choice = some RenderChoice.venn :=
  ((c2_selector_threshold wEmpty ["a.vcf", "b.vcf"] none).1).mpr (Or.inl rfl)

/-- C3 counterexample: a file whose parse fails after yielding one record.
The read fails, yet the returned set is the partially filled set holding
that record's identity, not the empty set the claim requires. -/
theorem c3_partial_set_counterexample :
    readFails (wFail.vcfContent "ok.vcf") = true ∧
    (read_vcf_variants wFail "ok.vcf").1 ≠ ∅ :=
  ⟨rfl, by decide⟩

/-- C3 (amended): on an open failure the Set Builder returns the empty set
with a diagnostic on the error stream; on a mid-parse failure it returns
the identities accumulated before the error (possibly a non-empty, partially
filled set) with a diagnostic; a clean read returns the full set and no
diagnostic.  In every case the error is caught and the function returns
normally, so the run continues with the remaining files. -/
theorem c3_read_failure_behavior (w : World) (path : String) :
    (∀ msg, w.vcfContent path = .openFail msg →
      read_vcf_variants w path = (∅, [readErrMsg path msg])) ∧
    (∀ recs msg, w.vcfContent path = .content recs (some msg) →
      read_vcf_variants w path = (idsOf recs, [readErrMsg path msg])) ∧
    (∀ recs, w.vcfContent path = .content recs none →
      read_vcf_variants w path = (idsOf recs, [])) := by
  refine ⟨fun msg h => ?_, fun recs msg h => ?_, fun recs h => ?_⟩ <;>
    simp [read_vcf_variants, h]

theorem c3_read_failure_behavior_witness :
    read_vcf_variants wFail "bad.vcf" = (∅, [readErrMsg "bad.vcf" "boom"]) ∧
    read_vcf_variants wFail "ok.vcf" = (idsOf [recA], [readErrMsg "ok.vcf" "truncated"]) :=
  ⟨(c3_read_failure_behavior wFail "bad.vcf").1 "boom" rfl,
   (c3_read_failure_behavior wFail "ok.vcf").2.1 [recA] "truncated" rfl⟩

/-- C5: for N ≥ 4 labeled sets there are 2^N − 1 non-empty membership
combinations, and the exact-pattern counts over all of them sum to the
cardinality of the union of all the sets. -/
theorem c5_upset_partition (n : Nat) (sets : Fin n → Finset VariantId) (h4 : 4 ≤ n) :
    (nonemptyCombos n).card = 2 ^ n - 1 ∧
    (nonemptyCombos n).sum (exactComboCount n sets) = (unionAll n sets).card := by
  constructor
  · rw [nonemptyCombos, Finset.filter_ne' Finset.univ (∅ : Finset (Fin n)),
      Finset.card_erase_of_mem (Finset.mem_univ _), Finset.card_univ,
      Fintype.card_finset, Fintype.card_fin]
  · have key : ∀ x ∈ unionAll n sets, membershipPattern n sets x ∈ nonemptyCombos n := by
      intro x hx
      rw [unionAll] at hx
      rcases Finset.mem_biUnion.mp hx with ⟨i, _, hi⟩
      refine Finset.mem_filter.mpr ⟨Finset.mem_univ _, ?_⟩
      exact Finset.ne_empty_of_mem (Finset.mem_filter.mpr ⟨Finset.mem_univ i, hi⟩)
    exact (Finset.card_eq_sum_card_fiberwise key).symm

theorem c5_upset_partition_witness :
    (nonemptyCombos 4).card = 2 ^ 4 - 1 ∧
    (nonemptyCombos 4).sum (exactComboCount 4 sets4) = (unionAll 4 sets4).card :=
  c5_upset_partition 4 sets4 (by decide)

/- ---------------- scanner and main-path helper lemmas ---------------- -/

lemma scanArgs_cons (a : String) (rest : List String) :
    scanArgs (a :: rest) =
      if recognizedVcf a then
        (scanArgs rest).map (fun r => (a :: r.1, r.2))
      else if a = "--output" then
        match rest with
        | [] => none
        | b :: rest2 => (scanArgs rest2).map (fun r => (r.1, some (r.2.getD b)))
      else
        scanArgs rest := by
  rw [scanArgs.eq_def]

lemma scanArgs_length_le :
    ∀ (argv files : List String) (o : Option String),
      scanArgs argv = some (files, o) → files.length ≤ argv.length := by
  have aux : ∀ (n : Nat) (argv files : List String) (o : Option String),
      argv.length ≤ n → scanArgs argv = some (files, o) → files.length ≤ argv.length := by
    intro n
    induction n with
    | zero =>
      intro argv files o hlen hs
      have hargv : argv = [] := List.length_eq_zero.mp (Nat.le_zero.mp hlen)
      subst hargv
      simp only [scanArgs, Option.some.injEq, Prod.mk.injEq] at hs
      obtain ⟨h1, h2⟩ := hs
      subst h1
      exact Nat.le_refl _
    | succ n ih =>
      intro argv files o hlen hs
      cases argv with
      | nil =>
        simp only [scanArgs, Option.some.injEq, Prod.mk.injEq] at hs
        obtain ⟨h1, h2⟩ := hs
        subst h1
        exact Nat.le_refl _
      | cons a rest =>
        rw [scanArgs_cons] at hs
        by_cases hrec : recognizedVcf a
        · rw [if_pos hrec] at hs
          obtain ⟨⟨fs, o2⟩, hsr, heq⟩ := Option.map_eq_some'.mp hs
          have h1 : a :: fs = files := congrArg Prod.fst heq
          have hr : rest.length ≤ n := by
            simp only [List.length_cons] at hlen; omega
          have hle := ih rest fs o2 hr hsr
          subst h1
          simp only [List.length_cons]
          omega
        · rw [if_neg hrec] at hs
          by_cases hout : a = "--output"
          · rw [if_pos hout] at hs
            cases rest with
            | nil => exact Option.noConfusion hs
            | cons b rest2 =>
              obtain ⟨⟨fs, o2⟩, hsr, heq⟩ := Option.map_eq_some'.mp hs
              have h1 : fs = files := congrArg Prod.fst heq
              have hr : rest2.length ≤ n := by
                simp only [List.length_cons] at hlen; omega
              have hle := ih rest2 fs o2 hr hsr
              subst h1
              simp only [List.length_cons]
              omega
          · rw [if_neg hout] at hs
            have hr : rest.length ≤ n := by
              simp only [List.length_cons] at hlen; omega
            have hle := ih rest files o hr hs
            simp only [List.length_cons]
            omega
  intro argv files o hs
  exact aux argv.length argv files o (Nat.le_refl _) hs

lemma vennNote_ne_upsetSavedMsg (p : String) : vennNote ≠ upsetSavedMsg p := by
  intro h
  have h2 : vennNote.data = "UpSet plot saved to ".data ++ p.data := congrArg String.data h
  have h3 := congrArg List.head? h2
  have h4 : some 'V' = some 'U' := h3
  simp at h4

lemma mainRun_eq_of_scan (w : World) (argv files : List String) (o : Option String)
    (hs : scanArgs argv = some (files, o)) (hlen : ¬ argv.length < 2)
    (h2 : ¬ files.length < 2) :
    mainRun w argv =
      some (analyzeModel w files
        (o.map (fun p => if w.isDir p then joinPath p defaultOutName else p))) := by
  unfold mainRun
  rw [if_neg hlen, hs]
  simp [h2]

lemma analyzeModel_render (w : World) (files : List String) (out : Option String)
    (h2 : 2 ≤ files.length) :
    (analyzeModel w files out).exitCode = 0 ∧
    (analyzeModel w files out).choice.isSome = true ∧
    (analyzeModel w files out).savedPath = out ∧
    (analyzeModel w files out).stdout =
      (match out with
       | some p => [if files.length ≤ 3 then vennSavedMsg p else upsetSavedMsg p]
       | none => []) := by
  unfold analyzeModel vennModel upsetModel
  rw [if_neg (by omega : ¬ files.length < 2)]
  by_cases h3 : files.length ≤ 3
  · rw [if_pos h3, if_pos (by omega : files.length = 2 ∨ files.length = 3)]
    refine ⟨rfl, rfl, rfl, ?_⟩
    cases out with
    | none => rfl
    | some p => simp [h3]
  · rw [if_neg h3]
    refine ⟨rfl, rfl, rfl, ?_⟩
    cases out with
    | none => rfl
    | some p => simp [h3]

lemma scanArgs_isSome_of_getLast :
    ∀ (argv : List String), argv.getLast? ≠ some "--output" → (scanArgs argv).isSome = true := by
  have aux : ∀ (n : Nat) (argv : List String), argv.length ≤ n →
      argv.getLast? ≠ some "--output" → (scanArgs argv).isSome = true := by
    intro n
    induction n with
    | zero =>
      intro argv hlen _
      have hargv : argv = [] := List.length_eq_zero.mp (Nat.le_zero.mp hlen)
      subst hargv; rfl
    | succ n ih =>
      intro argv hlen hlast
      cases argv with
      | nil => rfl
      | cons a rest =>
        cases rest with
        | nil =>
          have ha : a ≠ "--output" := by
            intro h; exact hlast (by simp [h])
          rw [scanArgs_cons]
          by_cases hrec : recognizedVcf a
          · rw [if_pos hrec]; rfl
          · rw [if_neg hrec, if_neg ha]; rfl
        | cons b rest2 =>
          have hlast2 : (b :: rest2).getLast? ≠ some "--output" := by
            rwa [List.getLast?_cons_cons] at hlast
          rw [scanArgs_cons]
          by_cases hrec : recognizedVcf a
          · rw [if_pos hrec]
            have h1 : (scanArgs (b :: rest2)).isSome = true :=
              ih (b :: rest2) (by simp only [List.length_cons] at hlen ⊢; omega) hlast2
            cases hsr : scanArgs (b :: rest2) with
            | none => rw [hsr] at h1; cases h1
            | some q => rfl
          · rw [if_neg hrec]
            by_cases hout : a = "--output"
            · rw [if_pos hout]
              cases rest2 with
              | nil => rfl
              | cons c rest3 =>
                show (Option.map (fun r => (r.1, some (r.2.getD b)))
                  (scanArgs (c :: rest3))).isSome = true
                have hlast3 : (c :: rest3).getLast? ≠ some "--output" := by
                  rwa [List.getLast?_cons_cons] at hlast2
                have h1 : (scanArgs (c :: rest3)).isSome = true :=
                  ih (c :: rest3) (by simp only [List.length_cons] at hlen ⊢; omega) hlast3
                cases hsr : scanArgs (c :: rest3) with
                | none => rw [hsr] at h1; cases h1
                | some q => rfl
            · rw [if_neg hout]
              exact ih (b :: rest2) (by simp only [List.length_cons] at hlen ⊢; omega) hlast2
  intro argv
  exact aux argv.length argv (Nat.le_refl _)

/-- C4 counterexample: with arguments ["a.vcf", "--output"] there are fewer
than 2 recognized input files, yet the program does not print a usage
message and exit: the scan dies on the unguarded access to the token after
"--output" (modelled by none — an uncaught IndexError with nothing on
stdout), so no result record exists at all. -/
theorem c4_trailing_output_counterexample :
    ((["a.vcf", "--output"] : List String).filter recognizedVcf).length < 2 ∧
    mainRun wEmpty ["a.vcf", "--output"] = none ∧
    ∀ r : RunResult, mainRun wEmpty ["a.vcf", "--output"] ≠ some r := by
  refine ⟨by decide, rfl, fun r h => ?_⟩
  rw [show mainRun wEmpty ["a.vcf", "--output"] = none from rfl] at h
  exact Option.noConfusion h

/-- C4 (amended): provided the argument scan completes (every "--output"
read as a flag is followed by a token), an invocation with fewer than 2
recognized input files prints a single diagnostic line to stdout (the usage
line when fewer than 2 arguments were given at all, the please-provide line
otherwise) and exits with status 1 without reading any file or rendering or
writing anything; an invocation with at least 2 recognized inputs runs to
completion with exit status 0 after rendering, whatever the reader does on
each file.  When the scan does not complete, the process instead dies on an
uncaught IndexError (see C9). -/
theorem c4_exit_behavior (w : World) (argv files : List String) (o : Option String)
    (hs : scanArgs argv = some (files, o)) :
    (files.length < 2 → ∃ r, mainRun w argv = some r ∧ r.exitCode = 1 ∧
      (r.stdout = [usageMsg] ∨ r.stdout = [provideMsg]) ∧
      r.readPaths = [] ∧ r.choice = none ∧ r.savedPath = none) ∧
    (2 ≤ files.length → ∃ r, mainRun w argv = some r ∧ r.exitCode = 0 ∧
      r.choice.isSome = true) := by
  constructor
  · intro hlt
    by_cases hlen : argv.length < 2
    · refine ⟨usageResult, ?_, rfl, Or.inl rfl, rfl, rfl, rfl⟩
      unfold mainRun
      rw [if_pos hlen]
    · refine ⟨provideResult, ?_, rfl, Or.inr rfl, rfl, rfl, rfl⟩
      unfold mainRun
      rw [if_neg hlen, hs]
      simp [hlt]
  · intro h2
    have hlen : ¬ argv.length < 2 := by
      have := scanArgs_length_le argv files o hs; omega
    rw [mainRun_eq_of_scan w argv files o hs hlen (by omega)]
    have hr := analyzeModel_render w files
      (o.map (fun p => if w.isDir p then joinPath p defaultOutName else p)) h2
    exact ⟨_, rfl, hr.1, hr.2.1⟩

theorem c4_exit_behavior_witness :
    (∃ r, mainRun wEmpty ["only.vcf", "--output", "x.png"] = some r ∧ r.exitCode = 1 ∧
      (r.stdout = [usageMsg] ∨ r.stdout = [provideMsg]) ∧
      r.readPaths = [] ∧ r.choice = none ∧ r.savedPath = none) ∧
    (∃ r, mainRun wEmpty ["a.vcf", "b.vcf"] = some r ∧ r.exitCode = 0 ∧
      r.choice.isSome = true) :=
  ⟨(c4_exit_behavior wEmpty ["only.vcf", "--output", "x.png"] ["only.vcf"]
      (some "x.png") rfl).1 (by decide),
   (c4_exit_behavior wEmpty ["a.vcf", "b.vcf"] ["a.vcf", "b.vcf"] none rfl).2 (by decide)⟩

/-- C7 counterexample: a run with exactly 4 input sets selects the
multi-set (UpSet) diagram but emits no informational note at all — the
note about venn diagrams is never printed, contrary to the claim. -/
theorem c7_no_note_counterexample :
    (analyzeModel wEmpty ["a.vcf", "b.vcf", "c.vcf", "d.vcf"] none).choice =
      some RenderChoice.upset ∧
    vennNote ∉ (analyzeModel wEmpty ["a.vcf", "b.vcf", "c.vcf", "d.vcf"] none).stdout :=
  ⟨rfl, by decide⟩

/-- C7 (amended): for every run supplied with 4 or more input sets the
program selects the multi-set overlap diagram but emits no informational
note: the note stating that venn diagrams are not recommended above three
sets exists only in the pairwise renderer's fallback branch, which the
selector never reaches because it routes 4 or more sets directly to the
multi-set renderer.  (Invoking the pairwise renderer directly with more
than 3 sets would print the note, as the last conjunct records.) -/
theorem c7_upset_no_note (w : World) (files : List String) (out : Option String)
    (h4 : 4 ≤ files.length) :
    (analyzeModel w files out).choice = some RenderChoice.upset ∧
    vennNote ∉ (analyzeModel w files out).stdout ∧
    vennNote ∈ (vennModel w files out).stdout := by
  have h1 : ¬ files.length < 2 := by omega
  have h2 : ¬ files.length ≤ 3 := by omega
  have h23 : ¬ (files.length = 2 ∨ files.length = 3) := by omega
  unfold analyzeModel vennModel
  rw [if_neg h1, if_neg h2, if_neg h23]
  refine ⟨rfl, ?_, List.mem_cons_self _ _⟩
  unfold upsetModel
  cases out with
  | none => simp
  | some p => simp [vennNote_ne_upsetSavedMsg p]

theorem c7_upset_no_note_witness :
    (analyzeModel wEmpty ["a.vcf", "b.vcf", "c.vcf", "e.vcf"] (some "x.png")).choice =
      some RenderChoice.upset ∧
    vennNote ∉ (analyzeModel wEmpty ["a.vcf", "b.vcf", "c.vcf", "e.vcf"] (some "x.png")).stdout ∧
    vennNote ∈ (vennModel wEmpty ["a.vcf", "b.vcf", "c.vcf", "e.vcf"] (some "x.png")).stdout :=
  c7_upset_no_note wEmpty ["a.vcf", "b.vcf", "c.vcf", "e.vcf"] (some "x.png") (by decide)

/-- C9 counterexample: on the command line ["--output", "--output"] the
final token is "--output", yet the scan completes normally — the first
"--output" consumes the second as its value — so the claim that every
command line ending in "--output" fails to scan is false. -/
theorem c9_double_output_counterexample :
    (["--output", "--output"] : List String).getLast? = some "--output" ∧
    scanArgs ["--output", "--output"] = some ([], some "--output") :=
  ⟨rfl, rfl⟩

/-- C9 (amended): every command line whose final token is not "--output"
scans to completion (the out-of-range error branch is unreachable), and
every command line that ends in "--output" without any earlier "--output"
(so the trailing one is read as a flag, its unguarded look-ahead out of
range) makes the scan fail. -/
theorem c9_scan_crash_conditions :
    (∀ argv : List String, argv.getLast? ≠ some "--output" → (scanArgs argv).isSome = true) ∧
    (∀ pre : List String, "--output" ∉ pre → scanArgs (pre ++ ["--output"]) = none) := by
  refine ⟨scanArgs_isSome_of_getLast, ?_⟩
  intro pre
  induction pre with
  | nil => intro _; rfl
  | cons a pre ih =>
    intro hmem
    have ha : a ≠ "--output" := fun h => hmem (by simp [h])
    have hpre : "--output" ∉ pre := fun h => hmem (List.mem_cons_of_mem _ h)
    rw [List.cons_append, scanArgs_cons]
    by_cases hrec : recognizedVcf a
    · rw [if_pos hrec, ih hpre]; rfl
    · rw [if_neg hrec, if_neg ha]
      exact ih hpre

theorem c9_scan_crash_conditions_witness :
    (scanArgs ["a.vcf", "b.vcf"]).isSome = true ∧
    scanArgs (["a.vcf"] ++ ["--output"]) = none :=
  ⟨c9_scan_crash_conditions.1 ["a.vcf", "b.vcf"] (by decide),
   c9_scan_crash_conditions.2 ["a.vcf"] (by decide)⟩

/- ---------------- label helper lemmas (C6) ---------------- -/

lemma basenameL_eq_self (l : List Char) (h : ∀ c ∈ l, c ≠ '/') : basenameL l = l := by
  have ht : List.takeWhile (fun c => c != '/') l.reverse = l.reverse :=
    List.takeWhile_eq_self_iff.mpr (fun c hc => by
      simpa using h c (List.mem_reverse.mp hc))
  unfold basenameL
  rw [ht, List.reverse_reverse]

lemma replaceAllFuel_append (pat rep tail : List Char) :
    ∀ (stem : List Char) (fuel : Nat),
      (∀ i, i < stem.length → pat.isPrefixOf (List.drop i (stem ++ tail)) = false) →
      replaceAllFuel pat rep (fuel + stem.length) (stem ++ tail) =
        stem ++ replaceAllFuel pat rep fuel tail := by
  intro stem
  induction stem with
  | nil => intro fuel _; rfl
  | cons c stem ih =>
    intro fuel h
    have h0 : pat.isPrefixOf (c :: (stem ++ tail)) = false := by
      simpa using h 0 (by simp)
    have hcond : ¬ (pat ≠ [] ∧ pat.isPrefixOf (c :: (stem ++ tail)) = true) := by
      rintro ⟨-, hp⟩
      rw [h0] at hp
      exact Bool.false_ne_true hp
    show replaceAllFuel pat rep ((fuel + stem.length) + 1) (c :: (stem ++ tail)) =
      c :: stem ++ replaceAllFuel pat rep fuel tail
    rw [show replaceAllFuel pat rep ((fuel + stem.length) + 1) (c :: (stem ++ tail)) =
        if pat ≠ [] ∧ pat.isPrefixOf (c :: (stem ++ tail)) then
          rep ++ replaceAllFuel pat rep (fuel + stem.length)
            ((c :: (stem ++ tail)).drop pat.length)
        else c :: replaceAllFuel pat rep (fuel + stem.length) (stem ++ tail) from rfl,
      if_neg hcond, ih fuel (fun i hi => by
        have := h (i + 1) (by simpa using Nat.succ_lt_succ hi)
        simpa using this)]
    rfl

lemma replaceAll_append_of_nohit (pat rep stem tail : List Char)
    (h : ∀ i, i < stem.length → pat.isPrefixOf (List.drop i (stem ++ tail)) = false) :
    replaceAll pat rep (stem ++ tail) = stem ++ replaceAll pat rep tail := by
  unfold replaceAll
  rw [List.length_append, Nat.add_comm]
  exact replaceAllFuel_append pat rep tail stem tail.length h

/-- C6 counterexample: for the compressed input "sample.vcf.gz" the code's
label is "sample.gz" — replace removes the inner ".vcf" — which is the base
filename with neither its recognized extension ".vcf.gz" stripped (that
would give "sample", the spec-modelled label) nor its final extension ".gz"
stripped (that would give "sample.vcf"). -/
theorem c6_gz_label_counterexample :
    deriveLabel "sample.vcf.gz" = "sample.gz" ∧
    specLabel "sample.vcf.gz" = "sample" ∧
    deriveLabel "sample.vcf.gz" ≠ specLabel "sample.vcf.gz" ∧
    deriveLabel "sample.vcf.gz" ≠ "sample.vcf" :=
  ⟨rfl, rfl, by decide, by decide⟩

/-- C6 (amended): the label is the base filename with every occurrence of
the substring ".vcf" removed.  For a plain ".vcf" file whose stem contains
no slash and no embedded ".vcf" occurrence this coincides with stripping
the extension; for a compressed ".vcf.gz" file the label keeps the ".gz"
suffix (stem.gz), i.e. the extension is not stripped. -/
theorem c6_label_replace (s : String) (hs : ∀ c ∈ s.data, c ≠ '/')
    (h1 : ∀ i, i < s.data.length →
      List.isPrefixOf ".vcf".data (List.drop i (s.data ++ ".vcf".data)) = false)
    (h2 : ∀ i, i < s.data.length →
      List.isPrefixOf ".vcf".data (List.drop i (s.data ++ ".vcf.gz".data)) = false) :
    deriveLabel (s ++ ".vcf") = s ∧ deriveLabel (s ++ ".vcf.gz") = s ++ ".gz" := by
  constructor
  · have hext : ∀ c ∈ ".vcf".data, c ≠ '/' := by decide
    have hns : ∀ c ∈ s.data ++ ".vcf".data, c ≠ '/' := by
      intro c hc
      rcases List.mem_append.mp hc with h | h
      · exact hs c h
      · exact hext c h
    unfold deriveLabel
    rw [data_append, basenameL_eq_self _ hns,
      replaceAll_append_of_nohit ".vcf".data [] s.data ".vcf".data h1]
    show String.mk (s.data ++ ([] : List Char)) = s
    rw [List.append_nil]
  · have hext : ∀ c ∈ ".vcf.gz".data, c ≠ '/' := by decide
    have hns : ∀ c ∈ s.data ++ ".vcf.gz".data, c ≠ '/' := by
      intro c hc
      rcases List.mem_append.mp hc with h | h
      · exact hs c h
      · exact hext c h
    unfold deriveLabel
    rw [data_append, basenameL_eq_self _ hns,
      replaceAll_append_of_nohit ".vcf".data [] s.data ".vcf.gz".data h2]
    show String.mk (s.data ++ ".gz".data) = s ++ ".gz"
    obtain ⟨l⟩ := s
    rfl

theorem c6_label_replace_witness :
    deriveLabel ("sample" ++ ".vcf") = "sample" ∧
    deriveLabel ("sample" ++ ".vcf.gz") = "sample" ++ ".gz" :=
  c6_label_replace "sample" (by decide) (by decide) (by decide)

/- ---------------- dict helper lemmas (C10) ---------------- -/

lemma length_dictInsert (k : String) (v : Finset VariantId)
    (d : List (String × Finset VariantId)) :
    (dictInsert k v d).length = if k ∈ d.map Prod.fst then d.length else d.length + 1 := by
  induction d with
  | nil => simp [dictInsert]
  | cons p d ih =>
    obtain ⟨k', v'⟩ := p
    by_cases hk : k' = k
    · subst hk
      simp [dictInsert]
    · have hk2 : ¬ (k = k') := fun h => hk h.symm
      simp only [dictInsert, if_neg hk, List.length_cons, ih, List.map_cons,
        List.mem_cons, hk2, false_or]
      by_cases hm : k ∈ d.map Prod.fst <;> simp [hm]

lemma mem_keys_dictInsert (a k : String) (v : Finset VariantId)
    (d : List (String × Finset VariantId)) :
    a ∈ (dictInsert k v d).map Prod.fst ↔ a = k ∨ a ∈ d.map Prod.fst := by
  induction d with
  | nil => simp [dictInsert]
  | cons p d ih =>
    obtain ⟨k', v'⟩ := p
    by_cases hk : k' = k
    · subst hk
      simp [dictInsert]
    · simp only [dictInsert, if_neg hk, List.map_cons, List.mem_cons, ih]
      tauto

lemma lookup_dictInsert (k : String) (v : Finset VariantId)
    (d : List (String × Finset VariantId)) :
    List.lookup k (dictInsert k v d) = some v := by
  induction d with
  | nil => simp [dictInsert, List.lookup]
  | cons p d ih =>
    obtain ⟨k', v'⟩ := p
    by_cases hk : k' = k
    · subst hk
      simp [dictInsert, List.lookup]
    · have hb : (k == k') = false := beq_eq_false_iff_ne.mpr (fun h => hk h.symm)
      simp [dictInsert, if_neg hk, List.lookup, hb, ih]

lemma keys_buildAux_mono (w : World) :
    ∀ (files : List String) (d : List (String × Finset VariantId)) (a : String),
      a ∈ d.map Prod.fst →
      a ∈ (files.foldl (fun d f => dictInsert (deriveLabel f) (readSet w f) d) d).map
        Prod.fst := by
  intro files
  induction files with
  | nil => intro d a h; simpa using h
  | cons f files ih =>
    intro d a h
    simp only [List.foldl_cons]
    exact ih _ a ((mem_keys_dictInsert a _ _ d).mpr (Or.inr h))

lemma mem_keys_buildAux (w : World) :
    ∀ (files : List String) (d : List (String × Finset VariantId)) (f : String),
      f ∈ files →
      deriveLabel f ∈
        (files.foldl (fun d g => dictInsert (deriveLabel g) (readSet w g) d) d).map
          Prod.fst := by
  intro files
  induction files with
  | nil => intro d f h; cases h
  | cons g files ih =>
    intro d f h
    simp only [List.foldl_cons]
    rcases List.mem_cons.mp h with h | h
    · subst h
      exact keys_buildAux_mono w files _ _ ((mem_keys_dictInsert _ _ _ d).mpr (Or.inl rfl))
    · exact ih _ f h

lemma length_buildAux_le (w : World) :
    ∀ (files : List String) (d : List (String × Finset VariantId)),
      (files.foldl (fun d g => dictInsert (deriveLabel g) (readSet w g) d) d).length ≤
        d.length + files.length := by
  intro files
  induction files with
  | nil => intro d; simp
  | cons g files ih =>
    intro d
    simp only [List.foldl_cons, List.length_cons]
    refine le_trans (ih _) ?_
    rw [length_dictInsert]
    by_cases hm : deriveLabel g ∈ d.map Prod.fst <;> simp [hm] <;> omega

/-- C10: when two input files at different positions carry the same derived
label, the label-keyed collection ends up strictly shorter than the list of
input files (so both renderers receive strictly fewer sets than inputs were
supplied), and the set read from the later file is the one stored under the
shared label, replacing the earlier file's set (stated for the later file
being the last input). -/
theorem c10_duplicate_labels (w : World) (pre mid post : List String) (f1 f2 : String)
    (hl : deriveLabel f1 = deriveLabel f2) :
    (buildSets w (pre ++ f1 :: mid ++ f2 :: post)).length <
      (pre ++ f1 :: mid ++ f2 :: post).length ∧
    (post = [] →
      List.lookup (deriveLabel f2) (buildSets w (pre ++ f1 :: mid ++ f2 :: post)) =
        some (readSet w f2)) := by
  have hsplit : pre ++ f1 :: mid ++ f2 :: post = (pre ++ f1 :: mid) ++ (f2 :: post) := by
    simp
  have hmem : deriveLabel f2 ∈
      ((pre ++ f1 :: mid).foldl
        (fun d g => dictInsert (deriveLabel g) (readSet w g) d) []).map Prod.fst := by
    rw [← hl]
    exact mem_keys_buildAux w (pre ++ f1 :: mid) [] f1 (by simp)
  constructor
  · have hcalc :
        ((pre ++ f1 :: mid ++ f2 :: post).foldl
          (fun d g => dictInsert (deriveLabel g) (readSet w g) d) []).length ≤
          pre.length + mid.length + 1 + post.length := by
      rw [hsplit, List.foldl_append]
      simp only [List.foldl_cons]
      refine le_trans (length_buildAux_le w post _) ?_
      rw [length_dictInsert, if_pos hmem]
      have hb := length_buildAux_le w (pre ++ f1 :: mid) []
      simp only [List.length_append, List.length_cons, List.length_nil] at hb ⊢
      omega
    unfold buildSets
    simp only [List.length_append, List.length_cons] at hcalc ⊢
    omega
  · intro hpost
    subst hpost
    unfold buildSets
    rw [hsplit, List.foldl_append]
    simp only [List.foldl_cons, List.foldl_nil]
    exact lookup_dictInsert _ _ _

theorem c10_duplicate_labels_witness :
    deriveLabel "a/s.vcf" = deriveLabel "b/s.vcf" ∧
    ((buildSets wColl (([] : List String) ++ "a/s.vcf" :: [] ++ "b/s.vcf" :: [])).length <
      (([] : List String) ++ "a/s.vcf" :: [] ++ "b/s.vcf" :: []).length ∧
     (([] : List String) = [] →
       List.lookup (deriveLabel "b/s.vcf")
         (buildSets wColl (([] : List String) ++ "a/s.vcf" :: [] ++ "b/s.vcf" :: [])) =
         some (readSet wColl "b/s.vcf"))) :=
  ⟨by decide, c10_duplicate_labels wColl [] [] [] "a/s.vcf" "b/s.vcf" (by decide)⟩

/-- C8: when the scan produces an output path p and at least 2 recognized
files, the run renders and saves the image: if p names an existing
directory, the image path is p joined with the fixed default filename
"vcf_concordance.png", otherwise p itself is used verbatim; and a
confirmation line ending in that exact final path is printed to stdout. -/
theorem c8_output_path (w : World) (argv files : List String) (p : String)
    (hs : scanArgs argv = some (files, some p)) (h2 : 2 ≤ files.length) :
    ∃ r, mainRun w argv = some r ∧
      (w.isDir p = true → r.savedPath = some (joinPath p defaultOutName)) ∧
      (w.isDir p = false → r.savedPath = some p) ∧
      ∃ line ∈ r.stdout, ∃ msgPre : List Char,
        line.data = msgPre ++ (if w.isDir p then joinPath p defaultOutName else p).data := by
  have hlen : ¬ argv.length < 2 := by
    have := scanArgs_length_le argv files (some p) hs; omega
  rw [mainRun_eq_of_scan w argv files (some p) hs hlen (by omega)]
  have hr := analyzeModel_render w files
    ((some p).map (fun x => if w.isDir x then joinPath x defaultOutName else x)) h2
  have hsaved : (analyzeModel w files
      ((some p).map (fun x => if w.isDir x then joinPath x defaultOutName else x))).savedPath =
      some (if w.isDir p then joinPath p defaultOutName else p) := hr.2.2.1
  have hstd : (analyzeModel w files
      ((some p).map (fun x => if w.isDir x then joinPath x defaultOutName else x))).stdout =
      [if files.length ≤ 3 then
        vennSavedMsg (if w.isDir p then joinPath p defaultOutName else p)
       else upsetSavedMsg (if w.isDir p then joinPath p defaultOutName else p)] := hr.2.2.2
  refine ⟨_, rfl, fun hd => ?_, fun hd => ?_, ?_⟩
  · rw [hsaved, if_pos hd]
  · rw [hsaved, if_neg (by simp [hd])]
  · rw [hstd]
    by_cases h3 : files.length ≤ 3
    · refine ⟨_, List.mem_singleton_self _, "Venn diagram saved to ".data, ?_⟩
      rw [if_pos h3]
      rfl
    · refine ⟨_, List.mem_singleton_self _, "UpSet plot saved to ".data, ?_⟩
      rw [if_neg h3]
      rfl

theorem c8_output_path_witness :
    ∃ r, mainRun wDir ["a.vcf", "b.vcf", "--output", "outdir"] = some r ∧
      (wDir.isDir "outdir" = true → r.savedPath = some (joinPath "outdir" defaultOutName)) ∧
      (wDir.isDir "outdir" = false → r.savedPath = some "outdir") ∧
      ∃ line ∈ r.stdout, ∃ msgPre : List Char,
        line.data = msgPre ++
          (if wDir.isDir "outdir" then joinPath "outdir" defaultOutName else "outdir").data :=
  c8_output_path wDir ["a.vcf", "b.vcf", "--output", "outdir"] ["a.vcf", "b.vcf"] "outdir"
    rfl (by decide)
